import Mathlib

/-
Verification of the knowledge-store replication and query pipeline:
a shallow embedding of

  * src/main/services/KnowledgeStoreService.ts        (server-side Store Replica)
  * src/renderer/src/services/KnowledgeStoreSyncService.ts (owner-side Sync Session Controller)
  * src/main/apiServer/services/knowledge.ts          (Query Orchestrator)

Conventions of the embedding:
  * A JavaScript `Map` is an insertion-ordered association list; `Map.set`
    updates an existing key in place, otherwise appends.
  * Numbers carrying timestamps, versions and counts are `Nat`; scores and
    score thresholds are `ℚ` (the code only compares and copies them).
  * `Date.now()` is passed in as an explicit `now` argument.
  * The retrieval and rerank engines are external collaborators and enter as
    function-valued parameters; the IPC bridge is assumed present.
  * TS optional fields (`x?: T`, consumed with `??` / `?.`) are `Option T`.
-/

namespace CherryStudio

/-- Projection of a model descriptor, per `pickModel` in
KnowledgeStoreSyncService.ts (id, name, provider, group, description). -/
structure ModelInfo where
  id : String
  name : String
  provider : String
  group : String
  description : String
deriving DecidableEq

/-- `KnowledgeBaseSummary`: the metadata projection shipped to the server
process, with exactly the fields `toSummary` copies. `documentCount` and
`threshold` are optional (knowledge.ts reads them with `??`). -/
structure KnowledgeBaseSummary where
  id : String
  name : String
  description : String
  dimensions : Option Nat
  documentCount : Option Nat
  chunkSize : Option Nat
  chunkOverlap : Option Nat
  threshold : Option ℚ
  created_at : Nat
  updated_at : Nat
  version : Nat
  preprocessProvider : Option String
  model : ModelInfo
  rerankModel : Option ModelInfo
deriving DecidableEq

/-- An API client descriptor (provider, model, apiKey, baseURL), as in the
`embedApiClient` values of the KnowledgeStoreService tests. -/
structure ApiClientInfo where
  provider : String
  model : String
  apiKey : String
  baseURL : String
deriving DecidableEq

/-- `KnowledgeBaseParams`: opaque query configuration for one base — base
identifier, embedding client descriptor, optional rerank client descriptor.
knowledge.ts only inspects it through `rerankApiClient?.model`. -/
structure KnowledgeBaseParams where
  id : String
  embedApiClient : ApiClientInfo
  rerankApiClient : Option ApiClientInfo
deriving DecidableEq

/-- `KnowledgeBaseSyncPayload`: one sync entry, a metadata/params pair keyed
by the base identifier. -/
structure KnowledgeBaseSyncPayload where
  metadata : KnowledgeBaseSummary
  params : KnowledgeBaseParams
deriving DecidableEq

/-- One scored retrieval result, `KnowledgeSearchResult` — content fragment,
numeric score, opaque source metadata. -/
structure KnowledgeSearchResult where
  pageContent : String
  score : ℚ
  metadata : String
deriving DecidableEq

/-! ## Store Replica: KnowledgeStoreService.ts -/

/-- The response of `handleSyncPayload` over IPC:
`\x7b accepted: boolean, syncedAt?: number \x7d`. -/
structure SyncResult where
  accepted : Bool
  syncedAt : Option Nat
deriving DecidableEq

/-- The mutable fields of `KnowledgeStoreService`: the base map (an
insertion-ordered association list standing for the JS `Map`), the
session-active flag and the nullable last-synced timestamp. -/
structure StoreState where
  bases : List (String × KnowledgeBaseSyncPayload)
  isActive : Bool
  lastSyncedAt : Option Nat
deriving DecidableEq

/-- The state of a freshly constructed `KnowledgeStoreService`. -/
def initialStore : StoreState := ⟨[], false, none⟩

/-- JS `Map.set`: replace in place when the key exists, else append. -/
def mapSet (m : List (String × KnowledgeBaseSyncPayload)) (k : String)
    (v : KnowledgeBaseSyncPayload) : List (String × KnowledgeBaseSyncPayload) :=
  if m.any (fun p => p.1 == k) then
    m.map (fun p => if p.1 == k then (k, v) else p)
  else m ++ [(k, v)]

/-- The map built by `handleSyncPayload`: clear, then `set` each entry under
`entry.metadata.id` in payload order. -/
def buildMap (payload : List KnowledgeBaseSyncPayload) :
    List (String × KnowledgeBaseSyncPayload) :=
  payload.foldl (fun acc e => mapSet acc e.metadata.id e) []

/-- `startSync`: when already active only re-requests a snapshot from the
renderer (a channel message, no state change); otherwise sets the active
flag and requests a snapshot. -/
def startSync (st : StoreState) : StoreState :=
  if st.isActive then st else { st with isActive := true }

/-- `stopSync`: no-op when inactive; otherwise clears the active flag, the
base map and the timestamp (and signals the renderer to stop). -/
def stopSync (st : StoreState) : StoreState :=
  if !st.isActive then st
  else { bases := [], isActive := false, lastSyncedAt := none }

/-- `handleSyncPayload`: reject while inactive with no state change;
while active rebuild the map from the payload alone and stamp `now`. -/
def handleSyncPayload (st : StoreState) (payload : List KnowledgeBaseSyncPayload)
    (now : Nat) : StoreState × SyncResult :=
  if !st.isActive then (st, ⟨false, none⟩)
  else ({ st with bases := buildMap payload, lastSyncedAt := some now }, ⟨true, some now⟩)

/-- `getBases`: the metadata of every stored entry, in map order. -/
def getBases (st : StoreState) : List KnowledgeBaseSummary :=
  st.bases.map (fun p => p.2.metadata)

/-- `getBase`: lookup of one sync entry by base identifier. -/
def getBase (st : StoreState) (id : String) : Option KnowledgeBaseSyncPayload :=
  (st.bases.find? (fun p => p.1 == id)).map (fun p => p.2)

/-- `getBaseParams`: params of one entry, when present. -/
def getBaseParams (st : StoreState) (id : String) : Option KnowledgeBaseParams :=
  (getBase st id).map (fun e => e.params)

/-- `hasBases`: whether the map is non-empty (`size > 0`). -/
def hasBases (st : StoreState) : Bool := decide (0 < st.bases.length)

/-- `isSyncActive`: the session-active flag. -/
def isSyncActive (st : StoreState) : Bool := st.isActive

/-- `getLastSyncedAt`: the nullable last-synced timestamp. -/
def getLastSyncedAt (st : StoreState) : Option Nat := st.lastSyncedAt

/-- The store states reachable from construction through the service's
public transitions (each `handleSyncPayload` step may carry any payload and
clock reading). -/
inductive ReachableStore : StoreState → Prop where
  | init : ReachableStore initialStore
  | start {st} : ReachableStore st → ReachableStore (startSync st)
  | stop {st} : ReachableStore st → ReachableStore (stopSync st)
  | sync {st} (payload : List KnowledgeBaseSyncPayload) (now : Nat) :
      ReachableStore st → ReachableStore (handleSyncPayload st payload now).1

/-- The replica invariant: an inactive session has an empty map and a null
timestamp. -/
def StoreInv (st : StoreState) : Prop :=
  st.isActive = false → st.bases = [] ∧ st.lastSyncedAt = none

theorem reachable_storeInv {st : StoreState} (h : ReachableStore st) : StoreInv st := by
  induction h with
  | init => exact fun _ => ⟨rfl, rfl⟩
  | @start st _ ih =>
    by_cases hA : st.isActive
    · simpa [startSync, hA] using ih
    · intro hfalse
      simp [startSync, hA] at hfalse
  | @stop st _ ih =>
    by_cases hA : st.isActive
    · intro _
      simp [stopSync, hA]
    · simpa [stopSync, hA] using ih
  | @sync st payload now _ ih =>
    by_cases hA : st.isActive
    · intro hfalse
      simp [handleSyncPayload, hA] at hfalse
    · simpa [handleSyncPayload, hA] using ih

theorem mapSet_of_not_mem {m : List (String × KnowledgeBaseSyncPayload)} {k : String}
    {v : KnowledgeBaseSyncPayload} (h : k ∉ m.map Prod.fst) :
    mapSet m k v = m ++ [(k, v)] := by
  unfold mapSet
  rw [if_neg]
  intro hany
  rw [List.any_eq_true] at hany
  obtain ⟨p, hp, hpk⟩ := hany
  exact h (List.mem_map.mpr ⟨p, hp, by simpa using hpk⟩)

theorem foldl_mapSet (p : List KnowledgeBaseSyncPayload) :
    ∀ m : List (String × KnowledgeBaseSyncPayload),
      (m.map Prod.fst ++ p.map (fun e => e.metadata.id)).Nodup →
      p.foldl (fun acc e => mapSet acc e.metadata.id e) m =
        m ++ p.map (fun e => (e.metadata.id, e)) := by
  induction p with
  | nil => intro m _; simp
  | cons e p ih =>
    intro m h
    have hkeys : m.map Prod.fst ++ (e :: p).map (fun e => e.metadata.id) =
        m.map Prod.fst ++ e.metadata.id :: p.map (fun e => e.metadata.id) := by simp
    rw [hkeys, List.nodup_append] at h
    have hid : e.metadata.id ∉ m.map Prod.fst := by
      intro hmem
      exact h.2.2 hmem (List.mem_cons_self _ _)
    have hstep := ih (m ++ [(e.metadata.id, e)]) (by
      rw [List.map_append]
      have : (m.map Prod.fst ++ [(e.metadata.id, e)].map Prod.fst) ++
          p.map (fun e => e.metadata.id) =
          m.map Prod.fst ++ e.metadata.id :: p.map (fun e => e.metadata.id) := by simp
      rw [this, List.nodup_append]
      exact h)
    rw [List.foldl_cons, mapSet_of_not_mem hid, hstep]
    simp

theorem buildMap_eq (p : List KnowledgeBaseSyncPayload)
    (h : (p.map (fun e => e.metadata.id)).Nodup) :
    buildMap p = p.map (fun e => (e.metadata.id, e)) := by
  have := foldl_mapSet p [] (by simpa using h)
  simpa [buildMap] using this

/-- C1: `handleSyncPayload` while inactive returns "not accepted" and leaves
the whole replica state unchanged; while active it returns "accepted" with
the new timestamp, records that timestamp, and replaces the map wholesale so
that `getBases` is exactly the metadata projection of the payload (as a set
of summaries — stale entries vanish). Payload entries are keyed by base
identifier, so their identifiers are assumed distinct. -/
theorem handleSyncPayload_accept_spec (st : StoreState)
    (p : List KnowledgeBaseSyncPayload) (now : Nat)
    (hnodup : (p.map (fun e => e.metadata.id)).Nodup) :
    (st.isActive = false → handleSyncPayload st p now = (st, ⟨false, none⟩)) ∧
    (st.isActive = true →
      (handleSyncPayload st p now).2 = ⟨true, some now⟩ ∧
      getLastSyncedAt (handleSyncPayload st p now).1 = some now ∧
      (∀ m, m ∈ getBases (handleSyncPayload st p now).1 ↔
        m ∈ p.map (fun e => e.metadata))) := by
  constructor
  · intro h
    simp [handleSyncPayload, h]
  · intro h
    have hb : buildMap p = p.map (fun e => (e.metadata.id, e)) := buildMap_eq p hnodup
    refine ⟨by simp [handleSyncPayload, h], by simp [handleSyncPayload, h, getLastSyncedAt], ?_⟩
    intro m
    simp [handleSyncPayload, h, getBases, hb, List.map_map, Function.comp]

/-- A demonstration summary used by concrete witnesses. -/
def demoModel : ModelInfo :=
  ⟨"model-1", "Test", "openai", "default", ""⟩

/-- A demonstration summary used by concrete witnesses (the `kb-1` base of
the KnowledgeStoreService tests). -/
def demoSummary : KnowledgeBaseSummary :=
  ⟨"kb-1", "Docs", "", some 1536, some 10, some 512, some 128, some (1/10), 0, 0, 1,
    none, demoModel, none⟩

/-- Demonstration params used by concrete witnesses. -/
def demoParams : KnowledgeBaseParams :=
  ⟨"kb-1", ⟨"openai", "text-embedding-3-small", "secret", "https://api.openai.com"⟩, none⟩

/-- A demonstration sync entry used by concrete witnesses. -/
def demoEntry : KnowledgeBaseSyncPayload := ⟨demoSummary, demoParams⟩

theorem handleSyncPayload_accept_spec_witness :
    (handleSyncPayload ⟨[], true, none⟩ [demoEntry] 5).2 = ⟨true, some 5⟩ ∧
    (∀ m, m ∈ getBases (handleSyncPayload ⟨[], true, none⟩ [demoEntry] 5).1 ↔
      m ∈ [demoEntry].map (fun e => e.metadata)) :=
  ⟨((handleSyncPayload_accept_spec ⟨[], true, none⟩ [demoEntry] 5 (by simp)).2 rfl).1,
   ((handleSyncPayload_accept_spec ⟨[], true, none⟩ [demoEntry] 5 (by simp)).2 rfl).2.2⟩

/-- C7: in every reachable replica state, after `stopSync` the session is
inactive, `hasBases` is false and the last-synced timestamp is null — the
invariant "inactive implies empty map and null timestamp" is preserved by
every operation, so stopping clears everything regardless of prior state. -/
theorem stopSync_clears (st : StoreState) (h : ReachableStore st) :
    isSyncActive (stopSync st) = false ∧ hasBases (stopSync st) = false ∧
      getLastSyncedAt (stopSync st) = none := by
  by_cases hA : st.isActive
  · simp [stopSync, isSyncActive, hasBases, getLastSyncedAt, hA]
  · have hA' : st.isActive = false := by simpa using hA
    have hinv := reachable_storeInv h hA'
    refine ⟨by simp [stopSync, isSyncActive, hA', hA], ?_, ?_⟩
    · simp [stopSync, hasBases, hA', hA, hinv.1]
    · simp [stopSync, getLastSyncedAt, hA', hA, hinv.2]

theorem stopSync_clears_witness :
    isSyncActive (stopSync initialStore) = false ∧
      hasBases (stopSync initialStore) = false ∧
      getLastSyncedAt (stopSync initialStore) = none :=
  stopSync_clears initialStore ReachableStore.init

/-! ## Sync Session Controller: KnowledgeStoreSyncService.ts -/

/-- Modelled from the spec: knowledge items are opaque to the core; only
their count (`itemCount`) enters the fingerprint. The item type itself is
not among the embedded files. -/
structure KnowledgeItem where
  uid : String
deriving DecidableEq

/-- The owner-process model descriptor; the sync service reads exactly the
five fields `pickModel` copies. -/
structure Model where
  id : String
  name : String
  provider : String
  group : String
  description : String
deriving DecidableEq

/-- The owner-process (renderer) knowledge-base entity, with the fields the
sync service reads: identity and recency for the fingerprint, the summary
fields for `toSummary`, and the item list whose length is the fingerprint's
`itemCount`. -/
structure KnowledgeBase where
  id : String
  name : String
  description : String
  dimensions : Option Nat
  documentCount : Option Nat
  chunkSize : Option Nat
  chunkOverlap : Option Nat
  threshold : Option ℚ
  created_at : Nat
  updated_at : Nat
  version : Nat
  preprocessProvider : Option String
  model : Model
  rerankModel : Option Model
  items : Option (List KnowledgeItem)
deriving DecidableEq

/-- The slice of `settings.apiServer` the sync service reads. -/
structure ApiServerSettings where
  knowledgeBaseIds : List String
deriving DecidableEq

/-- `settings`, with `apiServer` possibly absent (read with `?.`). -/
structure SettingsState where
  apiServer : Option ApiServerSettings
deriving DecidableEq

/-- `knowledge`, with `bases` possibly absent (read with `|| []`). -/
structure KnowledgeState where
  bases : Option (List KnowledgeBase)
deriving DecidableEq

/-- The owner-process redux root state, restricted to the slices the sync
service reads. -/
structure RootState where
  knowledge : KnowledgeState
  settings : SettingsState
deriving DecidableEq

/-- `state.knowledge.bases || []`. -/
def basesOf (state : RootState) : List KnowledgeBase :=
  state.knowledge.bases.getD []

/-- `getSelectedKnowledgeBaseIds`: the configured allow-list
(`settings.apiServer?.knowledgeBaseIds ?? []`) with falsy entries dropped. -/
def getSelectedKnowledgeBaseIds (state : RootState) : List String :=
  ((state.settings.apiServer.map (fun c => c.knowledgeBaseIds)).getD []).filter
    (fun id => id != "")

/-- `filterBases`: all bases when the allow-list is empty, else the bases
whose identifier is in the allow-list, in their natural order. -/
def filterBases (bases : List KnowledgeBase) (selectedIds : List String) :
    List KnowledgeBase :=
  if selectedIds.length = 0 then bases
  else bases.filter (fun base => selectedIds.contains base.id)

/-- `base.items?.length ?? 0`. -/
def itemCountOf (base : KnowledgeBase) : Nat :=
  (base.items.map (fun items => items.length)).getD 0

/-- The default JS string order used by `Array.prototype.sort()`:
lexicographic comparison of the character sequences. -/
def charListLe : List Char → List Char → Bool
  | [], _ => true
  | _ :: _, [] => false
  | a :: as, b :: bs => if a < b then true else if b < a then false else charListLe as bs

/-- Lexicographic string order, Boolean-valued. -/
def strLe (a b : String) : Bool := charListLe a.data b.data

/-- Insertion of one identifier into a lexicographically sorted list. -/
def insertSorted (x : String) : List String → List String
  | [] => [x]
  | y :: ys => if strLe x y then x :: y :: ys else y :: insertSorted x ys

/-- `selectedIds.slice().sort()`: lexicographic insertion sort. -/
def sortStrings (l : List String) : List String := l.foldr insertSorted []

/-- `computeSignature`: the change-detection fingerprint over the filtered
base set. -/
def computeSignature (state : RootState) : String :=
  let bases := basesOf state
  let selectedIds := getSelectedKnowledgeBaseIds state
  let filteredBases := filterBases bases selectedIds
  let selectionSignature :=
    if 0 < selectedIds.length then String.intercalate "," (sortStrings selectedIds)
    else "ALL"
  if filteredBases.length = 0 then selectionSignature ++ "#EMPTY"
  else
    selectionSignature ++ "#" ++
      String.intercalate "|" (filteredBases.map (fun base =>
        base.id ++ ":" ++ toString base.updated_at ++ ":" ++ toString base.version ++
          ":" ++ toString (itemCountOf base)))

/-- `pickModel`: the five copied descriptor fields. -/
def pickModel (model : Model) : ModelInfo :=
  ⟨model.id, model.name, model.provider, model.group, model.description⟩

/-- `toSummary`: the metadata projection of one base. -/
def toSummary (base : KnowledgeBase) : KnowledgeBaseSummary :=
  ⟨base.id, base.name, base.description, base.dimensions, base.documentCount,
    base.chunkSize, base.chunkOverlap, base.threshold, base.created_at,
    base.updated_at, base.version, base.preprocessProvider, pickModel base.model,
    base.rerankModel.map pickModel⟩

/-- `buildPayload`, with `getKnowledgeBaseParams` (defined in
KnowledgeService, outside the embedded files) passed in as the projection
`toParams`. The missing-identifier warning is a log call with no state
effect. -/
def buildPayload (toParams : KnowledgeBase → KnowledgeBaseParams)
    (state : RootState) : List KnowledgeBaseSyncPayload :=
  (filterBases (basesOf state) (getSelectedKnowledgeBaseIds state)).map
    (fun base => ⟨toSummary base, toParams base⟩)

/-- The mutable fields of `KnowledgeStoreSyncService`: the syncing flag, the
presence of a live store subscription (the `unsubscribe` handle), and the
last pushed fingerprint. -/
structure ControllerState where
  isSyncing : Bool
  subscribed : Bool
  lastSignature : Option String
deriving DecidableEq

/-- The state of a freshly constructed `KnowledgeStoreSyncService`. -/
def initialController : ControllerState := ⟨false, false, none⟩

/-- `startSync`, returning the new controller state and the number of pushes
issued by the call (the IPC bridge is present, so `pushCurrentBases` always
reaches `syncBases`): already-active means one refresh push and no state
change; otherwise activate, seed the stored fingerprint from the current
owner state, subscribe, and push once. -/
def startSyncCtrl (c : ControllerState) (state : RootState) : ControllerState × Nat :=
  if c.isSyncing then (c, 1)
  else (⟨true, true, some (computeSignature state)⟩, 1)

/-- `stopSync` on the controller: clear the flag and the fingerprint,
release the subscription. -/
def stopSyncCtrl (_c : ControllerState) : ControllerState := ⟨false, false, none⟩

/-- One store-mutation notification carrying the post-mutation owner state:
the subscription callback recomputes the fingerprint, does nothing when it
matches the stored one, and otherwise stores it and pushes. -/
def onMutation (c : ControllerState) (state : RootState) : ControllerState × Nat :=
  if !c.subscribed then (c, 0)
  else if !c.isSyncing then (c, 0)
  else
    let signature := computeSignature state
    if some signature = c.lastSignature then (c, 0)
    else ({ c with lastSignature := some signature }, 1)

/-- A burst of mutation notifications in order, accumulating pushes. -/
def runMutations (c : ControllerState) (states : List RootState) :
    ControllerState × Nat :=
  states.foldl (fun acc s =>
    let r := onMutation acc.1 s
    (r.1, acc.2 + r.2)) (c, 0)

theorem runMutations_constant (sig : String) (states : List RootState)
    (h : ∀ s ∈ states, computeSignature s = sig) :
    runMutations ⟨true, true, some sig⟩ states = (⟨true, true, some sig⟩, 0) := by
  induction states with
  | nil => rfl
  | cons s states ih =>
    have hs := h s (List.mem_cons_self _ _)
    have hmut : onMutation ⟨true, true, some sig⟩ s = (⟨true, true, some sig⟩, 0) := by
      simp [onMutation, hs]
    unfold runMutations at ih ⊢
    rw [List.foldl_cons, hmut]
    simpa using ih (fun s hs => h s (List.mem_cons.mpr (Or.inr hs)))

/-- An owner state with no bases and no allow-list, for concrete witnesses;
its fingerprint is `ALL#EMPTY`. -/
def demoRootEmpty : RootState := ⟨⟨none⟩, ⟨none⟩⟩

/-- C2: while active and subscribed, a mutation whose recomputed fingerprint
equals the stored one triggers no push and no controller change; and for a
session started from inactive followed by any burst of mutations whose
fingerprints all equal the initial one, the total number of pushes is
exactly the one initial push. -/
theorem no_redundant_pushes (c : ControllerState) (s0 : RootState)
    (states : List RootState)
    (hsame : ∀ s ∈ states, computeSignature s = computeSignature s0) :
    (c.isSyncing = true → c.subscribed = true →
      c.lastSignature = some (computeSignature s0) →
      ∀ s ∈ states, onMutation c s = (c, 0)) ∧
    (startSyncCtrl initialController s0).2 +
      (runMutations (startSyncCtrl initialController s0).1 states).2 = 1 := by
  constructor
  · intro hsync hsub hlast s hs
    simp [onMutation, hsync, hsub, hlast, hsame s hs]
  · have hstart : startSyncCtrl initialController s0 =
        (⟨true, true, some (computeSignature s0)⟩, 1) := by
      simp [startSyncCtrl, initialController]
    rw [hstart, runMutations_constant (computeSignature s0) states hsame]
    rfl

theorem no_redundant_pushes_witness :
    (startSyncCtrl initialController demoRootEmpty).2 +
      (runMutations (startSyncCtrl initialController demoRootEmpty).1
        [demoRootEmpty, demoRootEmpty]).2 = 1 :=
  (no_redundant_pushes initialController demoRootEmpty [demoRootEmpty, demoRootEmpty]
    (by intro s hs; rcases List.mem_cons.mp hs with h | h
        · rw [h]
        · rcases List.mem_cons.mp h with h2 | h2
          · rw [h2]
          · cases h2)).2

/-- C9 (amended): `start()` while already active performs one unconditional
refresh push and leaves the controller state — in particular the stored
fingerprint comparison baseline — untouched; while inactive it activates,
stores the fingerprint computed from the current owner state as the fresh
comparison baseline, subscribes to mutations, and pushes once. -/
theorem startSyncCtrl_spec (c : ControllerState) (state : RootState) :
    (c.isSyncing = true → startSyncCtrl c state = (c, 1)) ∧
    (c.isSyncing = false →
      startSyncCtrl c state = (⟨true, true, some (computeSignature state)⟩, 1)) := by
  constructor <;> intro h <;> simp [startSyncCtrl, h]

theorem startSyncCtrl_spec_witness :
    startSyncCtrl ⟨true, true, some "ALL#EMPTY"⟩ demoRootEmpty =
      (⟨true, true, some "ALL#EMPTY"⟩, 1) ∧
    startSyncCtrl initialController demoRootEmpty =
      (⟨true, true, some (computeSignature demoRootEmpty)⟩, 1) :=
  ⟨(startSyncCtrl_spec ⟨true, true, some "ALL#EMPTY"⟩ demoRootEmpty).1 rfl,
   (startSyncCtrl_spec initialController demoRootEmpty).2 rfl⟩

/-- C9 counterexample: `start()` while inactive does not reset the stored
fingerprint to "unset" — on a concrete owner state the controller leaves the
call with the computed fingerprint `ALL#EMPTY` stored, not an unset one. -/
theorem startSyncCtrl_fingerprint_not_unset :
    (startSyncCtrl initialController demoRootEmpty).1.lastSignature =
      some "ALL#EMPTY" ∧
    (startSyncCtrl initialController demoRootEmpty).1.lastSignature ≠ none := by
  constructor
  · rfl
  · intro h
    simp [startSyncCtrl, initialController] at h

/-- A live base for the C8 scenario. -/
def demoBase (id : String) (updated version : Nat)
    (items : Option (List KnowledgeItem)) : KnowledgeBase :=
  ⟨id, id, "", some 128, some 1, some 512, some 128, some (1/2), 0, updated, version,
    none, ⟨"m", "m", "p", "g", ""⟩, none, items⟩

/-- The C8 scenario: live bases `a`, `b`, `c`; allow-list `a`, `c`. -/
def demoStateAC : RootState :=
  ⟨⟨some [demoBase "a" 10 1 none, demoBase "b" 20 1 none,
      demoBase "c" 30 2 (some [⟨"item-1"⟩])]⟩,
   ⟨some ⟨["a", "c"]⟩⟩⟩

/-- C8: the fingerprint is the lexicographically sorted allow-list joined by
commas (`ALL` sentinel when the allow-list is empty), then `#`, then
`id:updatedAt:version:itemCount` for each filtered base in natural order
joined by `|`; an empty filtered set yields the distinct `#EMPTY` marker.
On allow-list `a,c` over live bases `a,b,c` the fingerprint is
`a,c#a:10:1:0|c:30:2:1` (selection signature `a,c`) and the snapshot holds
exactly `a` and `c`. -/
theorem computeSignature_spec :
    (∀ state : RootState,
      computeSignature state =
        (let selectedIds := getSelectedKnowledgeBaseIds state
         let filteredBases := filterBases (basesOf state) selectedIds
         let selectionSignature :=
           if 0 < selectedIds.length then
             String.intercalate "," (sortStrings selectedIds)
           else "ALL"
         if filteredBases.length = 0 then selectionSignature ++ "#EMPTY"
         else
           selectionSignature ++ "#" ++
             String.intercalate "|" (filteredBases.map (fun base =>
               base.id ++ ":" ++ toString base.updated_at ++ ":" ++
                 toString base.version ++ ":" ++ toString (itemCountOf base))))) ∧
    computeSignature demoStateAC = "a,c#a:10:1:0|c:30:2:1" ∧
    (∀ toParams,
      (buildPayload toParams demoStateAC).map (fun e => e.metadata.id) = ["a", "c"]) :=
  ⟨fun _ => rfl, by rfl, fun _ => rfl⟩

/-! ## Query Orchestrator: apiServer/services/knowledge.ts -/

/-- The constants of shared/config/knowledge consumed by the orchestrator:
the global `top_k` ceiling (30 per the OpenAPI schema) and the system
default document count and score threshold. Their values never matter to
the claims, so all three stay parameters. -/
structure KnowledgeConfig where
  maxTopK : Nat
  defaultDocumentCount : Nat
  defaultThreshold : ℚ
deriving DecidableEq

/-- The knowledge search request shape: query text, target base
identifiers, optional rewritten query, optional threshold and `top_k`
overrides. -/
structure ApiKnowledgeSearchRequest where
  query : String
  knowledge_base_ids : List String
  rewrite : Option String
  threshold : Option ℚ
  top_k : Option Nat
deriving DecidableEq

/-- The zod schema `ApiKnowledgeSearchSchema`: query of 1..2000 characters,
at least one non-empty base id, rewrite of 1..2000 characters when present,
threshold in [0,1] when present, `top_k` a positive integer at most the
global ceiling when present. -/
def ValidRequest (cfg : KnowledgeConfig) (p : ApiKnowledgeSearchRequest) : Prop :=
  1 ≤ p.query.length ∧ p.query.length ≤ 2000 ∧
  p.knowledge_base_ids ≠ [] ∧ (∀ id ∈ p.knowledge_base_ids, id ≠ "") ∧
  (match p.rewrite with | some r => 1 ≤ r.length ∧ r.length ≤ 2000 | none => True) ∧
  (match p.threshold with | some t => 0 ≤ t ∧ t ≤ 1 | none => True) ∧
  (match p.top_k with | some k => 1 ≤ k ∧ k ≤ cfg.maxTopK | none => True)

/-- One per-base response item: base identifier, base display name, the
final result sequence. -/
structure ApiKnowledgeSearchResponseItem where
  knowledge_base_id : String
  knowledge_base_name : String
  results : List KnowledgeSearchResult
deriving DecidableEq

/-- The failures `search` raises before any per-base pipeline runs. -/
inductive SearchError where
  | notReady
  | noMatchingBases
deriving DecidableEq

/-- `payload.rewrite?.trim() ? payload.rewrite : payload.query`: the
rewritten query when present and non-blank (the untrimmed rewrite), else
the original query. -/
def effectiveQuery (p : ApiKnowledgeSearchRequest) : String :=
  match p.rewrite with
  | some r => if r.trim ≠ "" then r else p.query
  | none => p.query

/-- `payload.top_k ? Math.min(payload.top_k, MAX_KNOWLEDGE_TOP_K) :
undefined` (a `top_k` of 0 is falsy and acts as absent; the schema excludes
it). -/
def limitOverride (cfg : KnowledgeConfig) (p : ApiKnowledgeSearchRequest) :
    Option Nat :=
  match p.top_k with
  | some k => if k ≠ 0 then some (min k cfg.maxTopK) else none
  | none => none

/-- `limitOverride ?? request.metadata.documentCount ??
DEFAULT_KNOWLEDGE_DOCUMENT_COUNT`. -/
def effectiveLimit (cfg : KnowledgeConfig) (p : ApiKnowledgeSearchRequest)
    (req : KnowledgeBaseSyncPayload) : Nat :=
  (limitOverride cfg p).getD (req.metadata.documentCount.getD cfg.defaultDocumentCount)

/-- `payload.threshold ?? request.metadata.threshold ??
DEFAULT_KNOWLEDGE_THRESHOLD`. -/
def effectiveThreshold (cfg : KnowledgeConfig) (p : ApiKnowledgeSearchRequest)
    (req : KnowledgeBaseSyncPayload) : ℚ :=
  p.threshold.getD (req.metadata.threshold.getD cfg.defaultThreshold)

/-- `ragResults.filter((item) => item.score >= threshold)`. -/
def thresholdFilter (threshold : ℚ) (results : List KnowledgeSearchResult) :
    List KnowledgeSearchResult :=
  results.filter (fun item => decide (threshold ≤ item.score))

/-- `request.params.rerankApiClient?.model` as a Boolean: a rerank client
descriptor is present and its model name is truthy. -/
def hasRerankModel (params : KnowledgeBaseParams) : Bool :=
  match params.rerankApiClient with
  | some c => c.model != ""
  | none => false

/-- A record of one invocation of the rerank collaborator, mirroring the
argument object of `KnowledgeService.rerank`. -/
structure RerankCall where
  search : String
  base : KnowledgeBaseParams
  results : List KnowledgeSearchResult
deriving DecidableEq

/-- The per-base pipeline of `search` (steps 4a–4f), with the retrieval and
rerank collaborators as function parameters; returns the response item for
the base together with the rerank invocation the pipeline issued, if any. -/
def searchBase (cfg : KnowledgeConfig)
    (retrieve : String → KnowledgeBaseParams → List KnowledgeSearchResult)
    (rerank : String → KnowledgeBaseParams → List KnowledgeSearchResult →
      List KnowledgeSearchResult)
    (payload : ApiKnowledgeSearchRequest) (req : KnowledgeBaseSyncPayload) :
    ApiKnowledgeSearchResponseItem × Option RerankCall :=
  let searchQuery := effectiveQuery payload
  let allowedResults := effectiveLimit cfg payload req
  let threshold := effectiveThreshold cfg payload req
  let filtered := thresholdFilter threshold (retrieve searchQuery req.params)
  if 0 < filtered.length ∧ hasRerankModel req.params = true then
    (⟨req.metadata.id, req.metadata.name,
        (rerank searchQuery req.params filtered).take allowedResults⟩,
      some ⟨searchQuery, req.params, filtered⟩)
  else
    (⟨req.metadata.id, req.metadata.name, filtered.take allowedResults⟩, none)

/-- Resolution of the requested identifiers against the replica
(`payload.knowledge_base_ids.map(getBase).filter(Boolean)`): unmatched
identifiers are silently dropped. -/
def resolveBases (st : StoreState) (ids : List String) :
    List KnowledgeBaseSyncPayload :=
  ids.filterMap (getBase st)

/-- `search`: readiness precondition, base resolution, then the per-base
pipeline over each resolved base in request order. The collaborators are
pure oracle parameters. -/
def search (cfg : KnowledgeConfig)
    (retrieve : String → KnowledgeBaseParams → List KnowledgeSearchResult)
    (rerank : String → KnowledgeBaseParams → List KnowledgeSearchResult →
      List KnowledgeSearchResult)
    (st : StoreState) (payload : ApiKnowledgeSearchRequest) :
    Except SearchError (List ApiKnowledgeSearchResponseItem) :=
  if !isSyncActive st || !hasBases st then .error .notReady
  else
    let requests := resolveBases st payload.knowledge_base_ids
    if requests.length = 0 then .error .noMatchingBases
    else .ok (requests.map (fun req => (searchBase cfg retrieve rerank payload req).1))

/-- Configuration used by concrete witnesses: ceiling 30, defaults 6 and 0. -/
def demoCfg : KnowledgeConfig := ⟨30, 6, 0⟩

/-- A ready replica holding the demo entry under `kb-1`. -/
def demoStore : StoreState := ⟨[("kb-1", demoEntry)], true, some 5⟩

/-- The retrieval oracle of the spec scenario: three results scored
0.05, 0.2 and 0.9, in that order. -/
def demoRetrieve : String → KnowledgeBaseParams → List KnowledgeSearchResult :=
  fun _ _ => [⟨"r1", 1/20, ""⟩, ⟨"r2", 1/5, ""⟩, ⟨"r3", 9/10, ""⟩]

/-- An order-preserving rerank oracle (the identity). -/
def demoRerank : String → KnowledgeBaseParams → List KnowledgeSearchResult →
    List KnowledgeSearchResult := fun _ _ l => l

/-- A plain search request against `kb-1`. -/
def demoPayload : ApiKnowledgeSearchRequest := ⟨"q", ["kb-1"], none, none, none⟩

/-- C4: `search` fails "not ready" — for every choice of collaborators, so
before any collaborator call and with no partial results — exactly when the
session is inactive or the replica is empty; otherwise it resolves the
requested identifiers against the replica, silently dropping unmatched
ones, fails "no matching bases" exactly when zero identifiers resolve, and
otherwise answers with one item per resolved base. -/
theorem search_precondition_spec (cfg : KnowledgeConfig)
    (retrieve : String → KnowledgeBaseParams → List KnowledgeSearchResult)
    (rerank : String → KnowledgeBaseParams → List KnowledgeSearchResult →
      List KnowledgeSearchResult)
    (st : StoreState) (payload : ApiKnowledgeSearchRequest) :
    (search cfg retrieve rerank st payload = .error .notReady ↔
      (isSyncActive st = false ∨ hasBases st = false)) ∧
    (isSyncActive st = true → hasBases st = true →
      ((search cfg retrieve rerank st payload = .error .noMatchingBases ↔
          resolveBases st payload.knowledge_base_ids = []) ∧
        resolveBases st payload.knowledge_base_ids =
          payload.knowledge_base_ids.filterMap (getBase st) ∧
        (resolveBases st payload.knowledge_base_ids ≠ [] →
          search cfg retrieve rerank st payload =
            .ok ((resolveBases st payload.knowledge_base_ids).map
              (fun req => (searchBase cfg retrieve rerank payload req).1))))) := by
  cases hA : isSyncActive st <;> cases hB : hasBases st
  · simp [search, hA, hB]
  · simp [search, hA, hB]
  · simp [search, hA, hB]
  · by_cases hR : resolveBases st payload.knowledge_base_ids = []
    · refine ⟨?_, fun _ _ => ⟨?_, rfl, fun hcon => absurd hR hcon⟩⟩
      · simp [search, hA, hB, hR]
      · simp [search, hA, hB, hR]
    · have hlen : ¬(resolveBases st payload.knowledge_base_ids).length = 0 := by
        simpa [List.length_eq_zero] using hR
      refine ⟨?_, fun _ _ => ⟨?_, rfl, fun _ => ?_⟩⟩
      · simp [search, hA, hB, hlen]
      · simp [search, hA, hB, hlen, hR]
      · simp [search, hA, hB, hlen]

theorem search_precondition_spec_witness :
    search demoCfg demoRetrieve demoRerank initialStore demoPayload =
      .error .notReady ∧
    search demoCfg demoRetrieve demoRerank demoStore
      ⟨"q", ["missing"], none, none, none⟩ = .error .noMatchingBases :=
  ⟨(search_precondition_spec demoCfg demoRetrieve demoRerank initialStore
      demoPayload).1.mpr (Or.inl rfl),
   ((search_precondition_spec demoCfg demoRetrieve demoRerank demoStore
      ⟨"q", ["missing"], none, none, none⟩).2 rfl rfl).1.mpr rfl⟩

/-- C3: for every search request and resolved base, granted that the rerank
collaborator only reorders or drops elements of its input, the per-base
item of the response has at most the effective limit of results (it is the
truncation of the possibly-reranked sequence), every returned score is at
least the effective threshold, and threshold filtering preserves retrieval
order — the filtered sequence is a sublist of the retrieval output. -/
theorem search_results_bounded (cfg : KnowledgeConfig)
    (retrieve : String → KnowledgeBaseParams → List KnowledgeSearchResult)
    (rerank : String → KnowledgeBaseParams → List KnowledgeSearchResult →
      List KnowledgeSearchResult)
    (st : StoreState) (payload : ApiKnowledgeSearchRequest)
    (resp : List ApiKnowledgeSearchResponseItem) (req : KnowledgeBaseSyncPayload)
    (hok : search cfg retrieve rerank st payload = .ok resp)
    (hre : ∀ q pr l r, r ∈ rerank q pr l → r ∈ l)
    (hreq : req ∈ resolveBases st payload.knowledge_base_ids) :
    (searchBase cfg retrieve rerank payload req).1 ∈ resp ∧
    (searchBase cfg retrieve rerank payload req).1.results.length ≤
      effectiveLimit cfg payload req ∧
    (∀ r ∈ (searchBase cfg retrieve rerank payload req).1.results,
      effectiveThreshold cfg payload req ≤ r.score) ∧
    (thresholdFilter (effectiveThreshold cfg payload req)
        (retrieve (effectiveQuery payload) req.params)).Sublist
      (retrieve (effectiveQuery payload) req.params) := by
  have hresp : resp = (resolveBases st payload.knowledge_base_ids).map
      (fun r => (searchBase cfg retrieve rerank payload r).1) := by
    simp only [search] at hok
    split at hok
    · cases hok
    · split at hok
      · cases hok
      · injection hok with h
        exact h.symm
  refine ⟨hresp ▸ List.mem_map_of_mem _ hreq, ?_, ?_, List.filter_sublist _⟩
  · simp only [searchBase]
    split <;> simp [List.length_take]
  · intro r hr
    have hfil : r ∈ thresholdFilter (effectiveThreshold cfg payload req)
        (retrieve (effectiveQuery payload) req.params) := by
      simp only [searchBase] at hr
      split at hr
      · exact hre _ _ _ _ (List.take_subset _ _ hr)
      · exact List.take_subset _ _ hr
    exact of_decide_eq_true (List.mem_filter.mp hfil).2

theorem search_results_bounded_witness :
    (searchBase demoCfg demoRetrieve demoRerank demoPayload demoEntry).1.results.length ≤
      effectiveLimit demoCfg demoPayload demoEntry :=
  (search_results_bounded demoCfg demoRetrieve demoRerank demoStore demoPayload
    ((resolveBases demoStore demoPayload.knowledge_base_ids).map
      (fun r => (searchBase demoCfg demoRetrieve demoRerank demoPayload r).1))
    demoEntry rfl (fun _ _ _ _ h => h) (List.Mem.head _)).2.1

/-- C6: for a resolved base whose rerank client descriptor, when present,
names a model, the per-base pipeline invokes the rerank collaborator
exactly when the threshold-filtered sequence is non-empty and the
descriptor is present; the invocation's input is the filtered sequence —
hence never empty — whose rerank output then replaces it before
truncation, and without an invocation the filtered sequence itself is
truncated. -/
theorem rerank_invocation_spec (cfg : KnowledgeConfig)
    (retrieve : String → KnowledgeBaseParams → List KnowledgeSearchResult)
    (rerank : String → KnowledgeBaseParams → List KnowledgeSearchResult →
      List KnowledgeSearchResult)
    (payload : ApiKnowledgeSearchRequest) (req : KnowledgeBaseSyncPayload)
    (hwf : ∀ c, req.params.rerankApiClient = some c → c.model ≠ "") :
    ((searchBase cfg retrieve rerank payload req).2.isSome = true ↔
      (thresholdFilter (effectiveThreshold cfg payload req)
          (retrieve (effectiveQuery payload) req.params) ≠ [] ∧
        req.params.rerankApiClient.isSome = true)) ∧
    (∀ call, (searchBase cfg retrieve rerank payload req).2 = some call →
      call.results =
        thresholdFilter (effectiveThreshold cfg payload req)
          (retrieve (effectiveQuery payload) req.params) ∧
      call.results ≠ [] ∧
      (searchBase cfg retrieve rerank payload req).1.results =
        (rerank (effectiveQuery payload) req.params call.results).take
          (effectiveLimit cfg payload req)) ∧
    ((searchBase cfg retrieve rerank payload req).2 = none →
      (searchBase cfg retrieve rerank payload req).1.results =
        (thresholdFilter (effectiveThreshold cfg payload req)
            (retrieve (effectiveQuery payload) req.params)).take
          (effectiveLimit cfg payload req)) := by
  have hrk : hasRerankModel req.params = true ↔
      req.params.rerankApiClient.isSome = true := by
    cases hc : req.params.rerankApiClient with
    | none => simp [hasRerankModel, hc]
    | some c =>
      simp only [hasRerankModel, hc, Option.isSome_some, iff_true, bne_iff_ne, ne_eq]
      exact hwf c hc
  simp only [searchBase]
  split_ifs with h
  · obtain ⟨hpos, hmodel⟩ := h
    refine ⟨?_, ?_, ?_⟩
    · simp only [Option.isSome_some, true_iff]
      exact ⟨List.length_pos.mp hpos, hrk.mp hmodel⟩
    · intro call hcall
      injection hcall with h2
      rw [← h2]
      exact ⟨rfl, List.length_pos.mp hpos, rfl⟩
    · intro hnone
      cases hnone
  · refine ⟨?_, ?_, fun _ => rfl⟩
    · simp only [Option.isSome_none, Bool.false_eq_true, false_iff]
      intro hcon
      exact h ⟨List.length_pos.mpr hcon.1, hrk.mpr hcon.2⟩
    · intro call hcall
      cases hcall

/-- Params with a rerank client descriptor, for the C6 witness. -/
def demoRerankParams : KnowledgeBaseParams :=
  ⟨"kb-1", ⟨"openai", "text-embedding-3-small", "secret", "u"⟩,
    some ⟨"openai", "rerank-1", "secret", "u"⟩⟩

/-- A sync entry carrying a rerank-capable base, for the C6 witness. -/
def demoRerankEntry : KnowledgeBaseSyncPayload := ⟨demoSummary, demoRerankParams⟩

theorem rerank_invocation_spec_witness :
    (searchBase demoCfg demoRetrieve demoRerank demoPayload demoRerankEntry).2.isSome
        = true ↔
      (thresholdFilter (effectiveThreshold demoCfg demoPayload demoRerankEntry)
          (demoRetrieve (effectiveQuery demoPayload) demoRerankEntry.params) ≠ [] ∧
        demoRerankEntry.params.rerankApiClient.isSome = true) :=
  (rerank_invocation_spec demoCfg demoRetrieve demoRerank demoPayload demoRerankEntry
    (by intro c hc
        injection hc with h
        rw [← h]
        decide)).1

/-- C5: under the request schema, the effective query text is the rewritten
query when present and non-blank, else the original query; the effective
result limit is the `top_k` override capped at the global ceiling when
present, else the base's configured document count, else the system
default; the effective score threshold is the request override when
present, else the base's configured threshold, else the system default. -/
theorem effective_parameters_spec (cfg : KnowledgeConfig)
    (payload : ApiKnowledgeSearchRequest) (req : KnowledgeBaseSyncPayload)
    (hval : ValidRequest cfg payload) :
    ((payload.rewrite = none → effectiveQuery payload = payload.query) ∧
     (∀ r, payload.rewrite = some r →
       (r.trim ≠ "" → effectiveQuery payload = r) ∧
       (r.trim = "" → effectiveQuery payload = payload.query))) ∧
    ((∀ k, payload.top_k = some k →
       effectiveLimit cfg payload req = min k cfg.maxTopK) ∧
     (payload.top_k = none →
       (∀ d, req.metadata.documentCount = some d →
         effectiveLimit cfg payload req = d) ∧
       (req.metadata.documentCount = none →
         effectiveLimit cfg payload req = cfg.defaultDocumentCount))) ∧
    ((∀ t, payload.threshold = some t → effectiveThreshold cfg payload req = t) ∧
     (payload.threshold = none →
       (∀ t, req.metadata.threshold = some t →
         effectiveThreshold cfg payload req = t) ∧
       (req.metadata.threshold = none →
         effectiveThreshold cfg payload req = cfg.defaultThreshold))) := by
  refine ⟨⟨?_, ?_⟩, ⟨?_, ?_⟩, ⟨?_, ?_⟩⟩
  · intro h
    simp [effectiveQuery, h]
  · intro r h
    constructor <;> intro ht <;> simp [effectiveQuery, h, ht]
  · intro k hk
    have hpos : 1 ≤ k := by
      have := hval.2.2.2.2.2.2
      rw [hk] at this
      exact this.1
    have hk0 : k ≠ 0 := by omega
    simp [effectiveLimit, limitOverride, hk, hk0]
  · intro h
    constructor
    · intro d hd
      simp [effectiveLimit, limitOverride, h, hd]
    · intro hd
      simp [effectiveLimit, limitOverride, h, hd]
  · intro t ht
    simp [effectiveThreshold, ht]
  · intro h
    constructor
    · intro t ht
      simp [effectiveThreshold, h, ht]
    · intro ht
      simp [effectiveThreshold, h, ht]

/-- A schema-valid request with a blank rewrite, a threshold override and a
`top_k` override, for the C5 witness. -/
def demoPayloadOverrides : ApiKnowledgeSearchRequest :=
  ⟨"q", ["kb-1"], some " ", some (1/2), some 7⟩

theorem effective_parameters_spec_witness :
    effectiveLimit demoCfg demoPayloadOverrides demoEntry =
      min 7 demoCfg.maxTopK :=
  (effective_parameters_spec demoCfg demoPayloadOverrides demoEntry
    ⟨by decide, by decide, by decide, by decide, ⟨by decide, by decide⟩,
      ⟨by norm_num, by norm_num⟩, ⟨by decide, by decide⟩⟩).2.1.1 7 rfl

/-- C10: with no `top_k` override, a resolved base whose configured
`documentCount` is 0 gets effective limit 0 — 0 counts as present for the
nullish chain, so the system default is not substituted — and its result
list is empty regardless of the retrieval output and rerank collaborator. -/
theorem zero_documentCount_limit (cfg : KnowledgeConfig)
    (retrieve : String → KnowledgeBaseParams → List KnowledgeSearchResult)
    (rerank : String → KnowledgeBaseParams → List KnowledgeSearchResult →
      List KnowledgeSearchResult)
    (payload : ApiKnowledgeSearchRequest) (req : KnowledgeBaseSyncPayload)
    (htop : payload.top_k = none)
    (hdoc : req.metadata.documentCount = some 0) :
    effectiveLimit cfg payload req = 0 ∧
    (searchBase cfg retrieve rerank payload req).1.results = [] := by
  have hlim : effectiveLimit cfg payload req = 0 := by
    simp [effectiveLimit, limitOverride, htop, hdoc]
  refine ⟨hlim, ?_⟩
  simp only [searchBase]
  split_ifs <;> simp [hlim]

/-- A base configured with `documentCount` 0, for the C10 witness. -/
def demoZeroEntry : KnowledgeBaseSyncPayload :=
  ⟨⟨"kb-0", "Zero", "", none, some 0, none, none, none, 0, 0, 1, none, demoModel, none⟩,
    demoParams⟩

theorem zero_documentCount_limit_witness :
    effectiveLimit demoCfg demoPayload demoZeroEntry = 0 ∧
    (searchBase demoCfg demoRetrieve demoRerank demoPayload demoZeroEntry).1.results
      = [] :=
  zero_documentCount_limit demoCfg demoRetrieve demoRerank demoPayload demoZeroEntry
    rfl rfl

end CherryStudio
